import Mathlib

/-!
Verification of the umbrella header `Sources/VLCBridging/libvlc_bridging.h`
of the VLCSwift repository.  The file is embedded verbatim as a list of
lines; a small model of the C preprocessor's line classification and
include resolution is defined over it, and the structural properties of
the header are proved.
-/

namespace VLCBridging

/-- The sixteen lines of `src/Sources/VLCBridging/libvlc_bridging.h`,
transcribed verbatim (the final line carries no trailing newline in the
source file). -/
def libvlc_bridging_lines : List String :=
  [ "/* Include all libVLC header that will"
  , " * be needed for VLCSwift:"
  , " */"
  , ""
  , "#include <vlc/libvlc.h>"
  , "#include <vlc/libvlc_renderer_discoverer.h>"
  , "#include <vlc/libvlc_picture.h>"
  , "#include <vlc/libvlc_media.h>"
  , "#include <vlc/libvlc_media_player.h>"
  , "#include <vlc/libvlc_media_list.h>"
  , "#include <vlc/libvlc_media_list_player.h>"
  , "#include <vlc/libvlc_media_library.h>"
  , "#include <vlc/libvlc_media_discoverer.h>"
  , "#include <vlc/libvlc_events.h>"
  , "#include <vlc/libvlc_dialog.h>"
  , "#include <vlc/libvlc_version.h>"
  ]

/-- A character of C horizontal whitespace. -/
def isWS (c : Char) : Bool := c = ' ' || c = '\t'

/-- Trim horizontal whitespace from both ends of a line. -/
def trimChars (l : List Char) : List Char :=
  ((l.dropWhile isWS).reverse.dropWhile isWS).reverse

/-- If `pre` is a prefix of `l`, return the remainder of `l`. -/
def dropPre : List Char → List Char → Option (List Char)
  | [], l => some l
  | _, [] => none
  | a :: as, b :: bs => if a = b then dropPre as bs else none

/-- Skip to just past the first block-comment terminator, if any. -/
def afterClose : List Char → Option (List Char)
  | [] => none
  | '*' :: '/' :: rest => some rest
  | _ :: rest => afterClose rest

/-- How a single physical line of the header reads to the preprocessor. -/
inductive LineKind where
  /-- Only whitespace. -/
  | blank
  /-- Entirely inside or consisting of comments. -/
  | comment
  /-- An include directive in angle-bracket form, with the bracketed path. -/
  | includeAngle (path : List Char)
  /-- An include directive in quoted form, with the quoted path. -/
  | includeQuote (path : List Char)
  /-- A preprocessing directive other than an include (text after trim). -/
  | other (text : List Char)
  /-- Any other line: a declaration, definition, statement, etc. -/
  | code (text : List Char)
deriving DecidableEq

/-- Classify one line given whether a block comment is open; also return
whether a block comment remains open after the line. -/
def classifyLine (inComment : Bool) (l : List Char) : LineKind × Bool :=
  if inComment then
    match afterClose l with
    | none => (LineKind.comment, true)
    | some rest =>
      if trimChars rest = [] then (LineKind.comment, false)
      else (LineKind.code (trimChars rest), false)
  else
    let t := trimChars l
    match t with
    | [] => (LineKind.blank, false)
    | '/' :: '*' :: rest =>
      (match afterClose rest with
       | none => (LineKind.comment, true)
       | some rest2 =>
         if trimChars rest2 = [] then (LineKind.comment, false)
         else (LineKind.code (trimChars rest2), false))
    | '/' :: '/' :: _ => (LineKind.comment, false)
    | _ =>
      match dropPre ("#include".data) t with
      | some rest =>
        (match trimChars rest with
         | '<' :: more =>
           if more.getLast? = some '>' then
             (LineKind.includeAngle more.dropLast, false)
           else (LineKind.other t, false)
         | '"' :: more =>
           if more.getLast? = some '"' then
             (LineKind.includeQuote more.dropLast, false)
           else (LineKind.other t, false)
         | _ => (LineKind.other t, false))
      | none =>
        match t with
        | '#' :: _ => (LineKind.other t, false)
        | _ => (LineKind.code t, false)

/-- Classify every line of a file, threading the block-comment state. -/
def classifyLines : Bool → List String → List LineKind
  | _, [] => []
  | c, l :: ls =>
    let r := classifyLine c l.data
    r.1 :: classifyLines r.2 ls

/-- The line kinds of a file, starting outside any comment. -/
def lineKinds (file : List String) : List LineKind := classifyLines false file

/-- The include directives of a file, in order, each as
`(angleForm?, path)` where the Bool is `true` for the `<...>` form and
`false` for the quoted form. -/
def includeEntries (file : List String) : List (Bool × String) :=
  (lineKinds file).filterMap fun k =>
    match k with
    | LineKind.includeAngle p => some (true, String.mk p)
    | LineKind.includeQuote p => some (false, String.mk p)
    | _ => none

/-- The include paths of a file, in textual order. -/
def includePaths (file : List String) : List String :=
  (includeEntries file).map (fun e => e.2)

/-- The component of a path after its last slash. -/
def basenameStr (s : String) : String :=
  String.mk ((s.data.reverse.takeWhile (fun c => c ≠ '/')).reverse)

/-- The basenames of a file's include paths, in textual order. -/
def includeBasenames (file : List String) : List String :=
  (includePaths file).map basenameStr

/-- The twelve headers the specification enumerates, in its order. -/
def claimedHeaders : List String :=
  [ "libvlc.h"
  , "libvlc_renderer_discoverer.h"
  , "libvlc_picture.h"
  , "libvlc_media.h"
  , "libvlc_media_player.h"
  , "libvlc_media_list.h"
  , "libvlc_media_list_player.h"
  , "libvlc_media_library.h"
  , "libvlc_media_discoverer.h"
  , "libvlc_events.h"
  , "libvlc_dialog.h"
  , "libvlc_version.h"
  ]

/-- The twelve include paths exactly as the header writes them. -/
def vlcPaths : List String :=
  [ "vlc/libvlc.h"
  , "vlc/libvlc_renderer_discoverer.h"
  , "vlc/libvlc_picture.h"
  , "vlc/libvlc_media.h"
  , "vlc/libvlc_media_player.h"
  , "vlc/libvlc_media_list.h"
  , "vlc/libvlc_media_list_player.h"
  , "vlc/libvlc_media_library.h"
  , "vlc/libvlc_media_discoverer.h"
  , "vlc/libvlc_events.h"
  , "vlc/libvlc_dialog.h"
  , "vlc/libvlc_version.h"
  ]

/-- A line is blank, a comment, or an include directive. -/
def lineOk : LineKind → Bool
  | LineKind.blank => true
  | LineKind.comment => true
  | LineKind.includeAngle _ => true
  | LineKind.includeQuote _ => true
  | LineKind.other _ => false
  | LineKind.code _ => false

/-- A preprocessing directive other than an include (a `#define`,
`#ifndef`, `#pragma`, ...). -/
def isHashOther : LineKind → Bool
  | LineKind.other _ => true
  | _ => false

/-- Modelled from the spec: the toolchain's include-resolution step.  The
environment says which header paths resolve; resolution walks the include
directives in order and stops at the first unresolvable path with a
missing-file diagnostic naming it. -/
def resolveIncludes (env : String → Bool) : List String → Except String Unit
  | [] => Except.ok ()
  | p :: ps => if env p then resolveIncludes env ps else Except.error p

/-- Modelled from the spec: preprocessing the header under an
include-resolution environment. -/
def preprocessFile (env : String → Bool) (file : List String) :
    Except String Unit :=
  resolveIncludes env (includePaths file)

/-- Modelled from the spec: inclusion of a list of headers where the
environment maps each resolvable header path to the list of symbols its
inclusion makes visible; an unresolvable path yields a missing-file
diagnostic, otherwise the visible symbols are concatenated in order. -/
def expandInclude (env : String → Option (List String)) :
    List String → Except String (List String)
  | [] => Except.ok []
  | p :: ps =>
    match env p with
    | none => Except.error p
    | some s =>
      match expandInclude env ps with
      | Except.error e => Except.error e
      | Except.ok rest => Except.ok (s ++ rest)

/-- Modelled from the spec: the symbols a translation unit consisting of
just this header makes visible under a symbol environment. -/
def expandSymbols (env : String → Option (List String))
    (file : List String) : Except String (List String) :=
  expandInclude env (includePaths file)

/-- The concatenation, in include order, of the symbols each of the twelve
headers contributes under an environment. -/
def symUnion (env : String → Option (List String)) : List String :=
  vlcPaths.foldr (fun p acc => (env p).getD [] ++ acc) []

/-- An environment in which every header path resolves. -/
def allResolve : String → Bool := fun _ => true

/-- An environment in which no header path resolves. -/
def noneResolve : String → Bool := fun _ => false

/-- A sample symbol environment: the core header contributes the
instantiation and teardown entry points, the other eleven listed headers
resolve with no sample symbols, and everything else is absent. -/
def sampleSymEnv : String → Option (List String) := fun p =>
  if p = "vlc/libvlc.h" then some ["libvlc_new", "libvlc_release"]
  else if vlcPaths.contains p then some [] else none

/-- Modelled from the spec: a one-file preprocessor with conditional
state.  `defs` is the set of defined macro names, `stack` the activity of
the open conditional blocks, `once` whether a `#pragma once` was seen.
Returns the final macro set, the emitted include paths, and the once
flag. -/
def ppRun : List LineKind → List (List Char) → List Bool → Bool →
    List (List Char) × List (List Char) × Bool
  | [], defs, _, once => (defs, [], once)
  | k :: ks, defs, stack, once =>
    let active := stack.all (fun b => b)
    match k with
    | LineKind.includeAngle p =>
      match ppRun ks defs stack once with
      | (d2, em, o2) => (d2, if active then p :: em else em, o2)
    | LineKind.includeQuote p =>
      match ppRun ks defs stack once with
      | (d2, em, o2) => (d2, if active then p :: em else em, o2)
    | LineKind.other t =>
      match dropPre ("#ifndef".data) t with
      | some rest =>
        ppRun ks defs ((!(defs.contains (trimChars rest))) :: stack) once
      | none =>
        match dropPre ("#ifdef".data) t with
        | some rest =>
          ppRun ks defs ((defs.contains (trimChars rest)) :: stack) once
        | none =>
          match dropPre ("#endif".data) t with
          | some _ => ppRun ks defs stack.tail once
          | none =>
            match dropPre ("#define".data) t with
            | some rest =>
              ppRun ks
                (if active then
                  ((trimChars rest).takeWhile (fun c => !(isWS c))) :: defs
                 else defs) stack once
            | none =>
              match dropPre ("#pragma".data) t with
              | some rest =>
                if trimChars rest = "once".data then
                  ppRun ks defs stack (once || active)
                else ppRun ks defs stack once
              | none => ppRun ks defs stack once
    | _ => ppRun ks defs stack once

theorem includePaths_eq : includePaths libvlc_bridging_lines = vlcPaths := by
  decide

theorem resolveIncludes_ok_iff (env : String → Bool) :
    ∀ ps : List String,
      resolveIncludes env ps = Except.ok () ↔ ∀ p ∈ ps, env p = true := by
  intro ps
  induction ps with
  | nil => simp [resolveIncludes]
  | cons q qs ih =>
    cases hq : env q with
    | true => simp [resolveIncludes, hq, ih]
    | false =>
      constructor
      · intro h; simp [resolveIncludes, hq] at h
      · intro h
        have := h q (by simp)
        simp [hq] at this

theorem resolveIncludes_error (env : String → Bool) :
    ∀ ps p, resolveIncludes env ps = Except.error p →
      env p = false ∧ p ∈ ps := by
  intro ps
  induction ps with
  | nil => intro p h; simp [resolveIncludes] at h
  | cons q qs ih =>
    intro p h
    cases hq : env q with
    | true =>
      simp [resolveIncludes, hq] at h
      rcases ih p h with ⟨h1, h2⟩
      exact ⟨h1, by simp [h2]⟩
    | false =>
      simp [resolveIncludes, hq] at h
      subst h
      exact ⟨hq, by simp⟩

theorem expandInclude_ok (env : String → Option (List String)) :
    ∀ ps : List String, (∀ p ∈ ps, (env p).isSome) →
      expandInclude env ps =
        Except.ok (ps.foldr (fun p acc => (env p).getD [] ++ acc) []) := by
  intro ps
  induction ps with
  | nil => intro _; simp [expandInclude]
  | cons q qs ih =>
    intro h
    have hq : (env q).isSome := h q (by simp)
    rcases Option.isSome_iff_exists.mp hq with ⟨s, hs⟩
    have hqs : ∀ p ∈ qs, (env p).isSome := fun p hp => h p (by simp [hp])
    simp [expandInclude, hs, ih hqs]

theorem mem_foldr_symbols (env : String → Option (List String)) :
    ∀ (ps : List String) p, p ∈ ps → ∀ x, x ∈ (env p).getD [] →
      x ∈ ps.foldr (fun q acc => (env q).getD [] ++ acc) [] := by
  intro ps
  induction ps with
  | nil => intro p hp; simp at hp
  | cons q qs ih =>
    intro p hp x hx
    simp only [List.foldr_cons, List.mem_append]
    rcases List.mem_cons.mp hp with h1 | h1
    · subst h1; exact Or.inl hx
    · exact Or.inr (ih p h1 x hx)

/-- C1: the header contains an include directive for each of exactly the
twelve enumerated libVLC headers — each appearing exactly once — and no
include directive for any other header. -/
theorem C1_twelve_includes_exactly_once :
    (includeBasenames libvlc_bridging_lines).length = 12 ∧
    (claimedHeaders.all (fun h0 =>
      (includeBasenames libvlc_bridging_lines).count h0 == 1)) = true ∧
    ((includeBasenames libvlc_bridging_lines).all (fun h0 =>
      claimedHeaders.contains h0)) = true := by
  decide

/-- C2: the twelve include directives appear in exactly the order in
which the specification enumerates the headers. -/
theorem C2_include_order :
    includeBasenames libvlc_bridging_lines = claimedHeaders := by
  decide

/-- C3: every line of the header is blank, part of a comment, or an
include directive; the file holds no declarations, macros, control flow
or state of its own. -/
theorem C3_only_blank_comment_include :
    (lineKinds libvlc_bridging_lines).all lineOk = true := by
  decide

/-- C4: in every include-resolution environment, preprocessing the header
succeeds exactly when all twelve listed header paths resolve, and any
failure is a missing-file diagnostic naming an unresolved listed
header. -/
theorem C4_resolution_iff (env : String → Bool) :
    (preprocessFile env libvlc_bridging_lines = Except.ok () ↔
      ∀ p ∈ vlcPaths, env p = true) ∧
    ∀ p, preprocessFile env libvlc_bridging_lines = Except.error p →
      env p = false ∧ p ∈ vlcPaths := by
  constructor
  · simp only [preprocessFile, includePaths_eq]
    exact resolveIncludes_ok_iff env vlcPaths
  · intro p h
    simp only [preprocessFile, includePaths_eq] at h
    exact resolveIncludes_error env vlcPaths p h

/-- C4 witness: in the environment where nothing resolves, preprocessing
fails with a diagnostic naming the first listed header, which indeed does
not resolve and is listed. -/
theorem C4_resolution_iff_witness :
    noneResolve "vlc/libvlc.h" = false ∧ "vlc/libvlc.h" ∈ vlcPaths :=
  (C4_resolution_iff noneResolve).2 "vlc/libvlc.h" (by rfl)

/-- C5: when every one of the twelve listed headers resolves, a
translation unit consisting of only this header preprocesses with no
diagnostic, and every symbol any of the twelve headers contributes is
visible in the result. -/
theorem C5_umbrella_exposes_symbols (env : String → Option (List String))
    (h : ∀ p ∈ vlcPaths, (env p).isSome) :
    expandSymbols env libvlc_bridging_lines = Except.ok (symUnion env) ∧
    ∀ p ∈ vlcPaths, ∀ x ∈ (env p).getD [], x ∈ symUnion env := by
  constructor
  · simp only [expandSymbols, includePaths_eq, symUnion]
    exact expandInclude_ok env vlcPaths h
  · intro p hp x hx
    exact mem_foldr_symbols env vlcPaths p hp x hx

/-- C5 witness: under the sample environment, preprocessing succeeds and
the instantiation and teardown entry points are visible. -/
theorem C5_umbrella_exposes_symbols_witness :
    expandSymbols sampleSymEnv libvlc_bridging_lines =
      Except.ok ["libvlc_new", "libvlc_release"] := by
  have h := (C5_umbrella_exposes_symbols sampleSymEnv (by decide)).1
  rw [h]
  rfl

/-- C6: the repository's sole source file consists of exactly 16
lines. -/
theorem C6_sixteen_lines : libvlc_bridging_lines.length = 16 := by
  decide

/-- C7: the header contains no include guard, no pragma once, and no
directive that sets preprocessor state, so expanding it under any macro
state — and expanding it twice in one translation unit — emits the same
twelve include directives, leaves the macro state unchanged, and marks no
once-only inclusion. -/
theorem C7_no_guard_stateless :
    ((lineKinds libvlc_bridging_lines).all (fun k => !(isHashOther k)))
      = true ∧
    ∀ defs : List (List Char),
      ppRun (lineKinds libvlc_bridging_lines) defs [] false =
        (defs, vlcPaths.map String.data, false) ∧
      ppRun (lineKinds libvlc_bridging_lines
              ++ lineKinds libvlc_bridging_lines) defs [] false =
        (defs, (vlcPaths ++ vlcPaths).map String.data, false) :=
  ⟨by decide, fun defs => ⟨rfl, rfl⟩⟩

/-- C7 witness: with one macro already defined, expansion still emits the
twelve includes and leaves the macro state exactly as it was. -/
theorem C7_no_guard_stateless_witness :
    ppRun (lineKinds libvlc_bridging_lines) ["LIBVLC_H".data] [] false =
      (["LIBVLC_H".data], vlcPaths.map String.data, false) :=
  (C7_no_guard_stateless.2 ["LIBVLC_H".data]).1

/-- C8: every one of the twelve include directives uses the angle-bracket
form with a path under the vlc/ directory, and none uses the quoted
local-file form. -/
theorem C8_angle_form_vlc_dir :
    includeEntries libvlc_bridging_lines
      = vlcPaths.map (fun p => (true, p)) ∧
    (vlcPaths.all (fun p => (dropPre ("vlc/".data) p.data).isSome))
      = true := by
  exact ⟨by decide, by decide⟩

end VLCBridging
